import Mathlib

/-!
Shallow embedding of the vimgym trainer's core logic:
the puzzle scorer and completion validator (`internal/puzzle`),
the progress store (`internal/progress`) and the input sequencer
of the puzzle view (`internal/tui`).  Go `int` values are modelled
as `Int`, Go strings as `String`, the Go map of results as an
association list keyed by puzzle id, and the engine side effects of
the sequencer as the list of command strings sent per key event.
-/

namespace VimGym

/-! ### internal/puzzle: star ratings, scorer, validator -/

/-! Go's `type StarRating int` is an integer alias; its four named
constants follow.  They are annotated as plain `Int` so that
arithmetic automation sees them directly. -/

def NoStar : Int := 0
def OneStar : Int := 1
def TwoStar : Int := 2
def ThreeStar : Int := 3

/-- `Score` from `internal/puzzle/scorer.go`.  Go's `par*3/2` is
truncated division, `Int.tdiv`. -/
def Score (keystrokes par : Int) : Int :=
  if keystrokes ≤ par then ThreeStar
  else if keystrokes ≤ (par * 3).tdiv 2 then TwoStar
  else OneStar

/-- `strings.TrimRight(s, "\n")`: removes every trailing newline
character (and only trailing ones). -/
def trimTrailingNewlines (s : String) : String :=
  String.mk ((s.data.reverse.dropWhile (fun c => c == '\n')).reverse)

/-- `Validate` from `internal/puzzle/validator.go`. -/
def Validate (current target : String) : Bool :=
  trimTrailingNewlines current == trimTrailingNewlines target

/-- The fields of `Puzzle` that the progress logic consults. -/
structure Puzzle where
  id : String
  track : Int
  level : Int
  par : Int
deriving Repr, DecidableEq

/-- `GetPuzzlesForLevel` from `internal/puzzle/loader.go`: keeps the
puzzles whose `Level` equals the given level, in order. -/
def GetPuzzlesForLevel (puzzles : List Puzzle) (level : Int) : List Puzzle :=
  puzzles.filter (fun p => p.level == level)

/-! ### internal/progress: best results and level unlocking -/

/-- `PuzzleResult` from `internal/progress/store.go`; `stars` is the
Go `StarRating` (an integer). -/
structure PuzzleResult where
  stars : Int
  keystrokes : Int
deriving Repr, DecidableEq

/-- The Go map `Results map[string]PuzzleResult`, as an association
list; at most one binding per key is maintained by `setResult`. -/
abbrev Results := List (String × PuzzleResult)

/-- Map update `s.Results[puzzleID] = r`: replaces the binding if the
key is present, otherwise appends it. -/
def setResult (rs : Results) (id : String) (r : PuzzleResult) : Results :=
  match rs with
  | [] => [(id, r)]
  | (k, v) :: t => if k = id then (id, r) :: t else (k, v) :: setResult t id r

/-- `GetBest`: map indexing, yielding the zero value
`PuzzleResult{0, 0}` when the key is absent. -/
def GetBest (rs : Results) (id : String) : PuzzleResult :=
  (List.lookup id rs).getD ⟨NoStar, 0⟩

/-- `SetBest` from `internal/progress/store.go`: stores the new result
when there is no existing one, the new rating is strictly higher, or
the ratings are equal and the new keystroke count is strictly lower. -/
def SetBest (rs : Results) (id : String) (stars keystrokes : Int) : Results :=
  match List.lookup id rs with
  | none => setResult rs id ⟨stars, keystrokes⟩
  | some existing =>
    if existing.stars < stars ∨ (stars = existing.stars ∧ keystrokes < existing.keystrokes) then
      setResult rs id ⟨stars, keystrokes⟩
    else rs

/-- `IsLevelUnlocked` from `internal/progress/store.go`. -/
def IsLevelUnlocked (rs : Results) (level : Int) (allPuzzles : List Puzzle) : Bool :=
  if level ≤ 1 then true
  else
    let prevPuzzles := GetPuzzlesForLevel allPuzzles (level - 1)
    if prevPuzzles.isEmpty then true
    else prevPuzzles.all (fun p => !decide ((GetBest rs p.id).stars < OneStar))

/-! ### internal/tui: the input sequencer of the puzzle view

The sequencer state is the subset of `PuzzleView` fields that
`handleNvimInput`, `handleOperatorPending`, `applyImmediateMode` and
`clearPending` read or write.  The engine calls `v.nvim.Input(keys)`
are modelled as the list of command strings issued during one key
event (in order); the sync scheduling has no effect on this state. -/

structure PuzzleView where
  keystrokes : Int
  mode : String
  pendingKeys : String
  pendingOperator : Bool
  pendingNeedsChar : Bool
  pendingTextObject : Bool
  pendingHasCount : Bool
  pendingCount : String
deriving Repr, DecidableEq

/-- The zero-ish initial sequencer state built by `NewPuzzleView`. -/
def NewPuzzleView : PuzzleView :=
  { keystrokes := 0, mode := "NORMAL", pendingKeys := "", pendingOperator := false,
    pendingNeedsChar := false, pendingTextObject := false, pendingHasCount := false,
    pendingCount := "" }

/-- `shouldBufferKey`: commands that require a following key.  The
single-quote and backtick mark-jump keys are written via their code
points. -/
def shouldBufferKey (keys : String) : Bool :=
  keys == "r" || keys == "f" || keys == "t" || keys == "F" || keys == "T" ||
  keys == "m" || keys == String.singleton (Char.ofNat 39) ||
  keys == String.singleton (Char.ofNat 96) || keys == "g" || keys == "z" ||
  keys == "@" || keys == "q" || keys == "[" || keys == "]"

def shouldStartOperator (keys : String) : Bool :=
  keys == "d" || keys == "c" || keys == "y"

def keyNeedsChar (keys : String) : Bool :=
  keys == "r" || keys == "f" || keys == "t" || keys == "F" || keys == "T"

/-- `isDigitKey`: a single character in `'0'..'9'`. -/
def isDigitKey (keys : String) : Bool :=
  match keys.data with
  | [c] => decide ('0' ≤ c) && decide (c ≤ '9')
  | _ => false

/-- Go `isTextObjectPrefix`: keys introducing a text object. -/
def isTextObjectIntro (keys : String) : Bool :=
  keys == "i" || keys == "a"

/-- Go `isMotionCharPrefix`: motions that take one more character. -/
def isMotionCharKey (keys : String) : Bool :=
  keys == "f" || keys == "t" || keys == "F" || keys == "T"

/-- `clearPending`: resets every pending-command field. -/
def clearPending (v : PuzzleView) : PuzzleView :=
  { v with pendingKeys := "", pendingOperator := false, pendingNeedsChar := false,
           pendingTextObject := false, pendingHasCount := false, pendingCount := "" }

/-- `entersInsertAfterChange`: an optional count, then `c`, then at
least one more key. -/
def entersInsertAfterChange (keys : String) : Bool :=
  match keys.data.dropWhile (fun c => decide ('0' ≤ c) && decide (c ≤ '9')) with
  | [] => false
  | c :: rest => c == 'c' && !rest.isEmpty

/-- `applyImmediateMode`: speculative mode prediction for keys that
deterministically change the mode. -/
def applyImmediateMode (v : PuzzleView) (keys : String) : PuzzleView :=
  if keys == "<Esc>" then { v with mode := "NORMAL" }
  else if v.mode != "NORMAL" then v
  else if keys == "i" || keys == "I" || keys == "a" || keys == "A" || keys == "o" ||
          keys == "O" || keys == "s" || keys == "S" || keys == "C" then
    { v with mode := "INSERT" }
  else if keys == "R" then { v with mode := "REPLACE" }
  else if keys == "v" then { v with mode := "VISUAL" }
  else if keys == "V" then { v with mode := "V-LINE" }
  else if keys == "<C-v>" then { v with mode := "V-BLOCK" }
  else if keys == ":" || keys == "/" || keys == "?" then { v with mode := "COMMAND" }
  else if entersInsertAfterChange keys then { v with mode := "INSERT" }
  else v

/-- `handleOperatorPending`: resolves the next key against a pending
operator.  Yields the updated state, the commands sent, and the Go
return value (`true` when a command was dispatched). -/
def handleOperatorPending (v : PuzzleView) (keys : String) : PuzzleView × List String × Bool :=
  if v.pendingTextObject then
    (clearPending v, [v.pendingKeys ++ keys], true)
  else if v.pendingNeedsChar then
    (clearPending v, [v.pendingKeys ++ keys], true)
  else if v.pendingKeys.length == 1 && keys == v.pendingKeys && !v.pendingHasCount then
    (clearPending v, [v.pendingKeys ++ keys], true)
  else if isDigitKey keys then
    if keys == "0" && !v.pendingHasCount then
      (clearPending v, [v.pendingKeys ++ keys], true)
    else
      ({ v with pendingKeys := v.pendingKeys ++ keys, pendingHasCount := true }, [], false)
  else if isTextObjectIntro keys then
    ({ v with pendingKeys := v.pendingKeys ++ keys, pendingTextObject := true }, [], false)
  else if isMotionCharKey keys then
    ({ v with pendingKeys := v.pendingKeys ++ keys, pendingNeedsChar := true }, [], false)
  else
    (clearPending v, [v.pendingKeys ++ keys], true)

/-- `handleNvimInput`: one key event.  Returns the new state and the
commands sent to the engine during the event. -/
def handleNvimInput (v : PuzzleView) (keys : String) : PuzzleView × List String :=
  if keys == "" then (v, [])
  else
    let v := { v with keystrokes := v.keystrokes + 1 }
    if v.mode != "NORMAL" then
      (applyImmediateMode (clearPending v) keys, [keys])
    else if v.pendingKeys != "" then
      if keys == "<Esc>" then
        (applyImmediateMode (clearPending v) keys, [keys])
      else if v.pendingOperator then
        let combined := v.pendingKeys ++ keys
        let r := handleOperatorPending v keys
        if r.2.2 then (applyImmediateMode r.1 combined, r.2.1)
        else (r.1, r.2.1)
      else if v.pendingNeedsChar || v.pendingTextObject then
        let combined := v.pendingKeys ++ keys
        (applyImmediateMode (clearPending v) combined, [combined])
      else
        let combined := v.pendingKeys ++ keys
        (applyImmediateMode (clearPending v) combined, [combined])
    else if v.pendingCount != "" then
      if keys == "<Esc>" then
        (applyImmediateMode { v with pendingCount := "" } keys, [keys])
      else if isDigitKey keys then
        ({ v with pendingCount := v.pendingCount ++ keys }, [])
      else if shouldStartOperator keys then
        ({ v with pendingKeys := v.pendingCount ++ keys, pendingOperator := true,
                  pendingCount := "" }, [])
      else if shouldBufferKey keys then
        ({ v with pendingKeys := v.pendingCount ++ keys,
                  pendingNeedsChar := keyNeedsChar keys, pendingCount := "" }, [])
      else
        let combined := v.pendingCount ++ keys
        (applyImmediateMode { v with pendingCount := "" } combined, [combined])
    else if isDigitKey keys then
      if keys != "0" then ({ v with pendingCount := keys }, [])
      else (applyImmediateMode v keys, [keys])
    else if shouldStartOperator keys then
      ({ v with pendingKeys := keys, pendingOperator := true }, [])
    else if shouldBufferKey keys then
      ({ v with pendingKeys := keys, pendingNeedsChar := keyNeedsChar keys }, [])
    else
      (applyImmediateMode v keys, [keys])

/-! ### internal/tui: key translation -/

/-- The Bubble Tea key types that `translateKey` distinguishes; every
unlisted key type behaves alike and is collapsed into `keyOther`. -/
inductive KeyType where
  | keyEsc | keyEnter | keyTab | keyBackspace | keyDelete
  | keyUp | keyDown | keyLeft | keyRight | keyHome | keyEnd
  | keyPgUp | keyPgDown | keySpace | keyRunes | keyOther
deriving Repr, DecidableEq

/-- A key message: its type, its literal runes, and the display string
the Bubble Tea library reports for it (`msg.String()`). -/
structure KeyMsg where
  ktype : KeyType
  runes : String
  str : String
deriving Repr, DecidableEq

/-- `translateKey`: converts a key message to an engine input string;
unrecognized keys translate to the empty string. -/
def translateKey (m : KeyMsg) : String :=
  match m.ktype with
  | .keyEsc => "<Esc>"
  | .keyEnter => "<CR>"
  | .keyTab => "<Tab>"
  | .keyBackspace => "<BS>"
  | .keyDelete => "<Del>"
  | .keyUp => "<Up>"
  | .keyDown => "<Down>"
  | .keyLeft => "<Left>"
  | .keyRight => "<Right>"
  | .keyHome => "<Home>"
  | .keyEnd => "<End>"
  | .keyPgUp => "<PageUp>"
  | .keyPgDown => "<PageDown>"
  | .keySpace => " "
  | .keyRunes => m.runes.replace "<" "<LT>"
  | .keyOther => if m.str.startsWith "ctrl+" then "<C-" ++ m.str.drop 5 ++ ">" else ""

/-- Feeds a list of key events through `handleNvimInput`, collecting
every command sent to the engine in order. -/
def feedKeys (v : PuzzleView) (keys : List String) : PuzzleView × List String :=
  match keys with
  | [] => (v, [])
  | k :: rest =>
    let r := handleNvimInput v k
    let r2 := feedKeys r.1 rest
    (r2.1, r.2 ++ r2.2)

/-- Structural invariant of the sequencer: when no prefix command is
buffered, none of the sub-wait flags is set.  It holds for the initial
state and is preserved by every key event. -/
def PendingInv (v : PuzzleView) : Prop :=
  v.pendingKeys = "" →
    (v.pendingOperator = false ∧ v.pendingNeedsChar = false ∧
     v.pendingTextObject = false ∧ v.pendingHasCount = false)

/-! ## Theorems -/

/-- `trimTrailingNewlines` absorbs a pushed trailing newline. -/
theorem trimTrailingNewlines_push (s : String) :
    trimTrailingNewlines (s.push '\n') = trimTrailingNewlines s := by
  simp [trimTrailingNewlines, String.push, List.reverse_append]

/-- C1 counterexample: the claim predicts `Validate "a\n\n" "a" = false`
(two trailing newlines differ from the goal by more than one trailing
newline per side), but the code trims every trailing newline and
returns true. -/
theorem validate_two_trailing_newlines_accepted : Validate "a\n\n" "a" = true := by decide

/-- C1 (amended): `Validate` compares the two strings after trimming
all trailing newlines from each side, leaving leading and internal
newlines intact; it returns true iff the trimmed remainders are
exactly equal, so trailing-newline variants such as `"a\n\n"` against
`"a"` are accepted while leading or internal newline differences are
rejected. -/
theorem validate_trims_all_trailing_newlines :
    (∀ t, Validate t t = true) ∧
    (∀ c t, Validate (c.push '\n') t = Validate c t) ∧
    (∀ c t, Validate c (t.push '\n') = Validate c t) ∧
    (∀ c t, Validate c t = true ↔ trimTrailingNewlines c = trimTrailingNewlines t) ∧
    Validate "a\n\n" "a" = true ∧ Validate "\na" "a" = false ∧ Validate "a\nb" "ab" = false := by
  refine ⟨fun t => ?_, fun c t => ?_, fun c t => ?_, fun c t => ?_, by decide, by decide, by decide⟩
  · simp [Validate]
  · simp [Validate, trimTrailingNewlines_push]
  · simp [Validate, trimTrailingNewlines_push]
  · simp [Validate]

/-- C2: the scorer's rating bands.  For positive par, `keystrokes ≤ par`
yields three stars, `par < keystrokes ≤ floor(par * 1.5)` two stars,
anything above one star; the band boundary plus one scores one star and
no call returns the zero rating. -/
theorem score_bands (k par : Int) (h : 0 < par) :
    (Score k par = ThreeStar ↔ k ≤ par) ∧
    (Score k par = TwoStar ↔ par < k ∧ k ≤ par * 3 / 2) ∧
    (Score k par = OneStar ↔ par * 3 / 2 < k) ∧
    Score (par * 3 / 2 + 1) par = OneStar ∧
    (∀ j : Int, Score j par ≠ NoStar) := by
  have htd : (par * 3).tdiv 2 = par * 3 / 2 := Int.tdiv_eq_ediv (by omega) (by omega)
  refine ⟨?_, ?_, ?_, ?_, fun j => ?_⟩ <;>
    simp only [Score, htd, ThreeStar, TwoStar, OneStar, NoStar] <;>
    split_ifs <;> omega

/-- Witness for `score_bands` at keystrokes 4, par 2. -/
theorem score_bands_witness :
    (0 : Int) < 2 ∧
    ((Score 4 2 = ThreeStar ↔ (4 : Int) ≤ 2) ∧
     (Score 4 2 = TwoStar ↔ (2 : Int) < 4 ∧ (4 : Int) ≤ 2 * 3 / 2) ∧
     (Score 4 2 = OneStar ↔ (2 : Int) * 3 / 2 < 4) ∧
     Score (2 * 3 / 2 + 1) 2 = OneStar ∧
     (∀ j : Int, Score j 2 ≠ NoStar)) :=
  ⟨by norm_num, score_bands 4 2 (by norm_num)⟩

/-- Looking up the key just written by `setResult` yields the written
value. -/
theorem lookup_setResult_self (rs : Results) (id : String) (r : PuzzleResult) :
    List.lookup id (setResult rs id r) = some r := by
  induction rs with
  | nil => simp [setResult]
  | cons hd tl ih =>
    obtain ⟨k, v⟩ := hd
    by_cases hk : k = id
    · simp [setResult, hk]
    · have hne : (id == k) = false := beq_eq_false_iff_ne.mpr (fun hik => hk hik.symm)
      simp [setResult, hk, List.lookup, hne, ih]

/-- C3: for a puzzle with a stored result, `SetBest` stores the new
(rating, keystrokes) pair iff the new rating is strictly higher or the
ratings are equal and the new keystroke count is strictly lower;
otherwise the stored result is unchanged. -/
theorem setBest_merge (rs : Results) (id : String) (e : PuzzleResult) (stars ks : Int)
    (h : List.lookup id rs = some e) :
    GetBest (SetBest rs id stars ks) id =
      if e.stars < stars ∨ (stars = e.stars ∧ ks < e.keystrokes) then ⟨stars, ks⟩ else e := by
  unfold SetBest
  rw [h]
  by_cases hc : e.stars < stars ∨ (stars = e.stars ∧ ks < e.keystrokes)
  · simp only [if_pos hc]
    simp [GetBest, lookup_setResult_self]
  · simp only [if_neg hc]
    simp [GetBest, h]

/-- Witness for `setBest_merge`: merging (3 stars, 12 keystrokes) into
a stored (2 stars, 10 keystrokes) stores (3, 12) because the higher
rating wins outright. -/
theorem setBest_merge_witness :
    List.lookup "p1" ([("p1", PuzzleResult.mk 2 10)] : Results) = some ⟨2, 10⟩ ∧
    GetBest (SetBest [("p1", PuzzleResult.mk 2 10)] "p1" 3 12) "p1" =
      (if (2 : Int) < 3 ∨ ((3 : Int) = 2 ∧ (12 : Int) < 10) then ⟨3, 12⟩ else ⟨2, 10⟩) :=
  ⟨rfl, setBest_merge [("p1", PuzzleResult.mk 2 10)] "p1" ⟨2, 10⟩ 3 12 rfl⟩

/-- C4 counterexample: the claim predicts the stored (2 stars,
10 keystrokes) result survives a new (2 stars, 7 keystrokes) result,
but `SetBest` replaces it: equal rating with strictly fewer keystrokes
wins. -/
theorem setBest_equal_rating_fewer_keystrokes_replaces :
    GetBest (SetBest [("p1", PuzzleResult.mk 2 10)] "p1" 2 7) "p1" ≠ ⟨2, 10⟩ := by decide

/-- C4 (amended): merging a new (2 stars, 7 keystrokes) result into a
stored (2 stars, 10 keystrokes) result via `SetBest` stores (2, 7),
because with equal ratings the strictly smaller keystroke count wins. -/
theorem setBest_equal_rating_fewer_keystrokes :
    GetBest (SetBest [("p1", PuzzleResult.mk 2 10)] "p1" 2 7) "p1" = ⟨2, 7⟩ := by decide

/-- C6: from normal mode with no pending state (any keystroke count),
the sequence `d`, `i`, `w` sends nothing after the first and second
keys, sends exactly the single command `"diw"` after the third, and
counts one keystroke per key event (3 in total). -/
theorem diw_sequence (ks : Int) :
    (feedKeys ⟨ks, "NORMAL", "", false, false, false, false, ""⟩ ["d"]).2 = [] ∧
    (feedKeys ⟨ks, "NORMAL", "", false, false, false, false, ""⟩ ["d", "i"]).2 = [] ∧
    (feedKeys ⟨ks, "NORMAL", "", false, false, false, false, ""⟩ ["d", "i", "w"]).2 = ["diw"] ∧
    (feedKeys ⟨ks, "NORMAL", "", false, false, false, false, ""⟩ ["d"]).1.keystrokes = ks + 1 ∧
    (feedKeys ⟨ks, "NORMAL", "", false, false, false, false, ""⟩ ["d", "i"]).1.keystrokes
      = ks + 2 ∧
    (feedKeys ⟨ks, "NORMAL", "", false, false, false, false, ""⟩ ["d", "i", "w"]).1.keystrokes
      = ks + 3 := by
  refine ⟨rfl, rfl, rfl, rfl, ?_, ?_⟩
  · show ks + 1 + 1 = ks + 2
    omega
  · show ks + 1 + 1 + 1 = ks + 3
    omega

/-- C7: from normal mode with no pending state (any keystroke count),
the sequence `4`, `w` sends nothing after `4` alone, then exactly the
single command `"4w"`, and counts one keystroke per key event (2 in
total), not one per character of the command string. -/
theorem count_motion_sequence (ks : Int) :
    (feedKeys ⟨ks, "NORMAL", "", false, false, false, false, ""⟩ ["4"]).2 = [] ∧
    (feedKeys ⟨ks, "NORMAL", "", false, false, false, false, ""⟩ ["4", "w"]).2 = ["4w"] ∧
    (feedKeys ⟨ks, "NORMAL", "", false, false, false, false, ""⟩ ["4"]).1.keystrokes = ks + 1 ∧
    (feedKeys ⟨ks, "NORMAL", "", false, false, false, false, ""⟩ ["4", "w"]).1.keystrokes
      = ks + 2 := by
  refine ⟨rfl, rfl, rfl, ?_⟩
  show ks + 1 + 1 = ks + 2
  omega

/-- C8: from normal mode with no pending state (any keystroke count),
the sequence `d`, `d` sends nothing after the first key and dispatches
exactly the single command `"dd"` immediately upon the second key
(double-operator form), without waiting for a third key. -/
theorem double_operator_sequence (ks : Int) :
    (feedKeys ⟨ks, "NORMAL", "", false, false, false, false, ""⟩ ["d"]).2 = [] ∧
    (feedKeys ⟨ks, "NORMAL", "", false, false, false, false, ""⟩ ["d", "d"]).2 = ["dd"] ∧
    (feedKeys ⟨ks, "NORMAL", "", false, false, false, false, ""⟩ ["d", "d"]).1.keystrokes
      = ks + 2 := by
  refine ⟨rfl, rfl, ?_⟩
  show ks + 1 + 1 = ks + 2
  omega

/-- Witness for `diw_sequence` at keystroke count 0. -/
theorem diw_sequence_witness :
    (feedKeys ⟨0, "NORMAL", "", false, false, false, false, ""⟩ ["d"]).2 = [] ∧
    (feedKeys ⟨0, "NORMAL", "", false, false, false, false, ""⟩ ["d", "i"]).2 = [] ∧
    (feedKeys ⟨0, "NORMAL", "", false, false, false, false, ""⟩ ["d", "i", "w"]).2 = ["diw"] ∧
    (feedKeys ⟨0, "NORMAL", "", false, false, false, false, ""⟩ ["d"]).1.keystrokes = 0 + 1 ∧
    (feedKeys ⟨0, "NORMAL", "", false, false, false, false, ""⟩ ["d", "i"]).1.keystrokes
      = 0 + 2 ∧
    (feedKeys ⟨0, "NORMAL", "", false, false, false, false, ""⟩ ["d", "i", "w"]).1.keystrokes
      = 0 + 3 :=
  diw_sequence 0

/-- Witness for `count_motion_sequence` at keystroke count 0. -/
theorem count_motion_sequence_witness :
    (feedKeys ⟨0, "NORMAL", "", false, false, false, false, ""⟩ ["4"]).2 = [] ∧
    (feedKeys ⟨0, "NORMAL", "", false, false, false, false, ""⟩ ["4", "w"]).2 = ["4w"] ∧
    (feedKeys ⟨0, "NORMAL", "", false, false, false, false, ""⟩ ["4"]).1.keystrokes = 0 + 1 ∧
    (feedKeys ⟨0, "NORMAL", "", false, false, false, false, ""⟩ ["4", "w"]).1.keystrokes
      = 0 + 2 :=
  count_motion_sequence 0

/-- Witness for `double_operator_sequence` at keystroke count 0. -/
theorem double_operator_sequence_witness :
    (feedKeys ⟨0, "NORMAL", "", false, false, false, false, ""⟩ ["d"]).2 = [] ∧
    (feedKeys ⟨0, "NORMAL", "", false, false, false, false, ""⟩ ["d", "d"]).2 = ["dd"] ∧
    (feedKeys ⟨0, "NORMAL", "", false, false, false, false, ""⟩ ["d", "d"]).1.keystrokes
      = 0 + 2 :=
  double_operator_sequence 0

/-- C10: `handleNvimInput` on the empty key string is a complete
no-op for every view state (no field changes, nothing sent, nothing
counted), and `translateKey` maps every unrecognized key event (one
whose type is outside the special-key table, is not a rune key, and
whose display string is not a ctrl chord) to the empty string. -/
theorem empty_key_noop :
    (∀ v : PuzzleView, handleNvimInput v "" = (v, [])) ∧
    (∀ m : KeyMsg, m.ktype = KeyType.keyOther → m.str.startsWith "ctrl+" = false →
      translateKey m = "") := by
  constructor
  · intro v
    rfl
  · intro m h1 h2
    obtain ⟨kt, r, s⟩ := m
    simp only at h1
    subst h1
    simp only at h2
    simp [translateKey, h2]

/-- Witness for `empty_key_noop` at the initial view state and an
unrecognized key message. -/
theorem empty_key_noop_witness :
    handleNvimInput NewPuzzleView "" = (NewPuzzleView, []) ∧
    translateKey ⟨KeyType.keyOther, "", "x"⟩ = "" :=
  ⟨empty_key_noop.1 NewPuzzleView,
   empty_key_noop.2 ⟨KeyType.keyOther, "", "x"⟩ rfl (by decide)⟩


theorem applyImmediateMode_pendingKeys (v : PuzzleView) (k : String) :
    (applyImmediateMode v k).pendingKeys = v.pendingKeys := by
  unfold applyImmediateMode; split_ifs <;> rfl

theorem applyImmediateMode_pendingOperator (v : PuzzleView) (k : String) :
    (applyImmediateMode v k).pendingOperator = v.pendingOperator := by
  unfold applyImmediateMode; split_ifs <;> rfl

theorem applyImmediateMode_pendingNeedsChar (v : PuzzleView) (k : String) :
    (applyImmediateMode v k).pendingNeedsChar = v.pendingNeedsChar := by
  unfold applyImmediateMode; split_ifs <;> rfl

theorem applyImmediateMode_pendingTextObject (v : PuzzleView) (k : String) :
    (applyImmediateMode v k).pendingTextObject = v.pendingTextObject := by
  unfold applyImmediateMode; split_ifs <;> rfl

theorem applyImmediateMode_pendingHasCount (v : PuzzleView) (k : String) :
    (applyImmediateMode v k).pendingHasCount = v.pendingHasCount := by
  unfold applyImmediateMode; split_ifs <;> rfl

theorem applyImmediateMode_pendingCount (v : PuzzleView) (k : String) :
    (applyImmediateMode v k).pendingCount = v.pendingCount := by
  unfold applyImmediateMode; split_ifs <;> rfl

theorem append_ne_empty (s t : String) (h : s ≠ "" ∨ t ≠ "") : s ++ t ≠ "" := by
  intro he
  have hd : s.data ++ t.data = [] := by
    have := congrArg String.data he
    simpa [String.data_append] using this
  rcases List.append_eq_nil.mp hd with ⟨h1, h2⟩
  rcases h with h | h
  · exact h (by cases s; simp_all)
  · exact h (by cases t; simp_all)

theorem handleOperatorPending_inv (v : PuzzleView) (keys : String)
    (hne : v.pendingKeys ≠ "" ∨ keys ≠ "") :
    PendingInv (handleOperatorPending v keys).1 := by
  unfold handleOperatorPending
  split_ifs <;>
    simp_all [PendingInv, clearPending] <;>
    (intro hemp; exact absurd hemp (append_ne_empty _ _ hne))


theorem pendingInv_step (v : PuzzleView) (keys : String) (hinv : PendingInv v) :
    PendingInv (handleNvimInput v keys).1 := by
  by_cases hk : keys = ""
  · subst hk; exact hinv
  · by_cases hm : v.mode = "NORMAL"
    · by_cases hpk : v.pendingKeys = ""
      · by_cases hpc : v.pendingCount = ""
        · -- idle state
          by_cases hdig : isDigitKey keys = true
          · by_cases hz : keys = "0"
            · subst hz
              simp [handleNvimInput, hm, hpk, hpc, hdig, PendingInv,
                applyImmediateMode_pendingKeys, applyImmediateMode_pendingOperator,
                applyImmediateMode_pendingNeedsChar, applyImmediateMode_pendingTextObject,
                applyImmediateMode_pendingHasCount, applyImmediateMode_pendingCount]
              exact hinv hpk
            · simp [handleNvimInput, hk, hm, hpk, hpc, hdig, hz, PendingInv]
              exact hinv hpk
          · by_cases hop : shouldStartOperator keys = true
            · simp [handleNvimInput, hk, hm, hpk, hpc, hdig, hop, PendingInv, hk]
            · by_cases hbuf : shouldBufferKey keys = true
              · simp [handleNvimInput, hk, hm, hpk, hpc, hdig, hop, hbuf, PendingInv]
              · simp [handleNvimInput, hk, hm, hpk, hpc, hdig, hop, hbuf, PendingInv,
                  applyImmediateMode_pendingKeys, applyImmediateMode_pendingOperator,
                  applyImmediateMode_pendingNeedsChar, applyImmediateMode_pendingTextObject,
                  applyImmediateMode_pendingHasCount, applyImmediateMode_pendingCount]
                exact hinv hpk
        · -- count pending
          by_cases hesc : keys = "<Esc>"
          · simp [handleNvimInput, hk, hm, hpk, hpc, hesc, PendingInv,
              applyImmediateMode_pendingKeys, applyImmediateMode_pendingOperator,
              applyImmediateMode_pendingNeedsChar, applyImmediateMode_pendingTextObject,
              applyImmediateMode_pendingHasCount, applyImmediateMode_pendingCount]
            exact hinv hpk
          · by_cases hdig : isDigitKey keys = true
            · simp [handleNvimInput, hk, hm, hpk, hpc, hesc, hdig, PendingInv]
              exact hinv hpk
            · by_cases hop : shouldStartOperator keys = true
              · simp [handleNvimInput, hk, hm, hpk, hpc, hesc, hdig, hop, PendingInv]
                intro hemp
                exact absurd hemp (append_ne_empty _ _ (Or.inr hk))
              · by_cases hbuf : shouldBufferKey keys = true
                · simp [handleNvimInput, hk, hm, hpk, hpc, hesc, hdig, hop, hbuf, PendingInv]
                  intro hemp
                  exact absurd hemp (append_ne_empty _ _ (Or.inr hk))
                · simp [handleNvimInput, hk, hm, hpk, hpc, hesc, hdig, hop, hbuf, PendingInv,
                    applyImmediateMode_pendingKeys, applyImmediateMode_pendingOperator,
                    applyImmediateMode_pendingNeedsChar, applyImmediateMode_pendingTextObject,
                    applyImmediateMode_pendingHasCount, applyImmediateMode_pendingCount]
                  exact hinv hpk
      · -- prefix pending
        by_cases hesc : keys = "<Esc>"
        · simp [handleNvimInput, hk, hm, hpk, hesc, PendingInv, clearPending,
            applyImmediateMode_pendingKeys, applyImmediateMode_pendingOperator,
            applyImmediateMode_pendingNeedsChar, applyImmediateMode_pendingTextObject,
            applyImmediateMode_pendingHasCount, applyImmediateMode_pendingCount]
        · by_cases hpo : v.pendingOperator = true
          · have hsub := handleOperatorPending_inv
              { keystrokes := v.keystrokes + 1, mode := "NORMAL", pendingKeys := v.pendingKeys,
                pendingOperator := true, pendingNeedsChar := v.pendingNeedsChar,
                pendingTextObject := v.pendingTextObject, pendingHasCount := v.pendingHasCount,
                pendingCount := v.pendingCount } keys (Or.inr hk)
            have hsub2 : PendingInv (applyImmediateMode
                (handleOperatorPending
                  { keystrokes := v.keystrokes + 1, mode := "NORMAL",
                    pendingKeys := v.pendingKeys, pendingOperator := true,
                    pendingNeedsChar := v.pendingNeedsChar,
                    pendingTextObject := v.pendingTextObject,
                    pendingHasCount := v.pendingHasCount,
                    pendingCount := v.pendingCount } keys).1
                (v.pendingKeys ++ keys)) := by
              simp only [PendingInv, applyImmediateMode_pendingKeys,
                applyImmediateMode_pendingOperator, applyImmediateMode_pendingNeedsChar,
                applyImmediateMode_pendingTextObject, applyImmediateMode_pendingHasCount]
              exact hsub
            simp only [handleNvimInput]
            simp [hk, hm, hpk, hesc, hpo]
            split
            · exact hsub2
            · exact hsub
          · simp [handleNvimInput, hk, hm, hpk, hesc, hpo, PendingInv, clearPending,
              applyImmediateMode_pendingKeys, applyImmediateMode_pendingOperator,
              applyImmediateMode_pendingNeedsChar, applyImmediateMode_pendingTextObject,
              applyImmediateMode_pendingHasCount, applyImmediateMode_pendingCount]
    · simp [handleNvimInput, hk, hm, PendingInv, clearPending, bne_iff_ne,
        applyImmediateMode_pendingKeys, applyImmediateMode_pendingOperator,
        applyImmediateMode_pendingNeedsChar, applyImmediateMode_pendingTextObject,
        applyImmediateMode_pendingHasCount, applyImmediateMode_pendingCount]

theorem pendingInv_initial : PendingInv NewPuzzleView := by
  intro h
  exact ⟨rfl, rfl, rfl, rfl⟩

/-- C5: while any multi-key state is pending (a buffered prefix command
or a buffered count), the escape key clears every pending field, sends
exactly one command — the escape key alone, none of the buffered keys —
and forces the local mode estimate to normal.  The hypothesis
`PendingInv` is the structural invariant of the sequencer: it holds for
the initial state (`pendingInv_initial`) and is preserved by every key
event (`pendingInv_step`), so it holds in every reachable state. -/
theorem escape_clears_pending (v : PuzzleView) (hinv : PendingInv v)
    (hpend : v.pendingKeys ≠ "" ∨ v.pendingCount ≠ "") :
    handleNvimInput v "<Esc>" =
      ({ keystrokes := v.keystrokes + 1, mode := "NORMAL", pendingKeys := "",
         pendingOperator := false, pendingNeedsChar := false, pendingTextObject := false,
         pendingHasCount := false, pendingCount := "" }, ["<Esc>"]) := by
  obtain ⟨ks, mode, pk, po, pnc, pto, phc, pc⟩ := v
  simp only [PendingInv] at hinv
  simp only at hpend
  by_cases hm : mode = "NORMAL"
  · subst hm
    by_cases hpk : pk = ""
    · subst hpk
      obtain ⟨hpo, hpnc, hpto, hphc⟩ := hinv rfl
      subst hpo; subst hpnc; subst hpto; subst hphc
      have hpc : pc ≠ "" := by tauto
      simp [handleNvimInput, applyImmediateMode, clearPending, hpc, bne_iff_ne]
    · simp [handleNvimInput, applyImmediateMode, clearPending, hpk, bne_iff_ne]
  · simp [handleNvimInput, applyImmediateMode, clearPending, hm, bne_iff_ne]

/-- Witness for `escape_clears_pending`: a pending `d` operator at
keystroke count 5. -/
theorem escape_clears_pending_witness :
    handleNvimInput ⟨5, "NORMAL", "d", true, false, false, false, ""⟩ "<Esc>" =
      (⟨5 + 1, "NORMAL", "", false, false, false, false, ""⟩, ["<Esc>"]) :=
  escape_clears_pending ⟨5, "NORMAL", "d", true, false, false, false, ""⟩
    (fun h => absurd h (by decide)) (Or.inl (by decide))

/-- C9: for every stored progress state and every level number `L ≥ 1`,
`IsLevelUnlocked` returns true iff `L` is the first level or every
puzzle whose level equals `L - 1` has a stored rating of at least one
star (the first level is always unlocked regardless of results). -/
theorem level_unlock_iff (rs : Results) (ps : List Puzzle) (L : Int) (h : 1 ≤ L) :
    (IsLevelUnlocked rs L ps = true ↔
      (L = 1 ∨ ∀ p ∈ ps, p.level = L - 1 → OneStar ≤ (GetBest rs p.id).stars)) := by
  unfold IsLevelUnlocked
  by_cases hL : L ≤ 1
  · have : L = 1 := le_antisymm hL h
    subst this
    simp
  · have hne : L ≠ 1 := by omega
    simp only [if_neg hL]
    by_cases hemp : (GetPuzzlesForLevel ps (L - 1)).isEmpty
    · simp only [hemp, if_pos]
      constructor
      · intro _
        right
        intro p hp hlev
        exfalso
        have : p ∈ GetPuzzlesForLevel ps (L - 1) := by
          simp [GetPuzzlesForLevel, hp, hlev]
        rw [List.isEmpty_iff] at hemp
        simp [hemp] at this
      · intro _
        trivial
    · simp only [hemp, if_neg, Bool.not_eq_true]
      rw [List.all_eq_true]
      constructor
      · intro hall
        right
        intro p hp hlev
        have hmem : p ∈ GetPuzzlesForLevel ps (L - 1) := by
          simp [GetPuzzlesForLevel, hp, hlev]
        have := hall p hmem
        simp only [Bool.not_eq_true', decide_eq_false_iff_not, not_lt] at this
        exact this
      · intro hall p hmem
        rcases hall with hall | hall
        · exact absurd hall hne
        · have hp : p ∈ ps ∧ p.level = L - 1 := by
            simpa [GetPuzzlesForLevel] using hmem
          have := hall p hp.1 hp.2
          simp only [Bool.not_eq_true', decide_eq_false_iff_not, not_lt]
          exact this

/-- Witness for `level_unlock_iff`: level 2 with a one-star result on
the single level-1 puzzle. -/
theorem level_unlock_iff_witness :
    (IsLevelUnlocked [("p1", PuzzleResult.mk 1 5)] 2 [Puzzle.mk "p1" 1 1 4] = true ↔
      ((2 : Int) = 1 ∨ ∀ p ∈ [Puzzle.mk "p1" 1 1 4], p.level = 2 - 1 →
        OneStar ≤ (GetBest [("p1", PuzzleResult.mk 1 5)] p.id).stars)) :=
  level_unlock_iff [("p1", PuzzleResult.mk 1 5)] [Puzzle.mk "p1" 1 1 4] 2 (by norm_num)

end VimGym
